import Mathlib

/-!
Shallow embedding of the directive resolution and serialization engine of
`fastify-cache-control` (files `src/plugin.ts` and `src/types.ts`).

JavaScript numbers used as durations are modelled as rationals (`ℚ`),
JavaScript truthiness is made explicit at each use site, and the
`Cache-Control` / `Vary` / CDN header writes of the `onSend` hook are
modelled as explicit state passing over a `Headers` record.  Fallible
operations (`resolveDirectives`, `validateDirectives`, `serializeDirectives`,
the hook itself) return `Except` / carry an `Option CCError`.
-/

namespace FastifyCacheControl

/-- Error codes of `FastifyCacheControlError` (types.ts, `ErrorCodes`):
`CONFLICT`, `INVALID_VALUE` (with the offending field name),
`INVALID_PRESET` (with the unknown preset name). -/
inductive CCError where
  | conflict
  | invalidValue (field : String)
  | invalidPreset (name : String)
deriving DecidableEq, Repr

/-- A scoped flag (`private` / `noCache`) is `boolean | string[] | undefined`
in the source.  `undefined` and `false` are indistinguishable in every use
site (both falsy, and `Array.isArray` is false on both), so they share the
`absent` constructor.  An array — even the empty one — is truthy in
JavaScript, which `truthy` below reflects. -/
inductive ScopedFlag where
  | absent
  | flag
  | fields (l : List String)
deriving DecidableEq, Repr

/-- JavaScript truthiness of a scoped-flag value: `undefined`/`false` are
falsy, `true` is truthy, and any array (including `[]`) is truthy. -/
def ScopedFlag.truthy : ScopedFlag → Bool
  | .absent => false
  | .flag => true
  | .fields _ => true

/-- Model of `CacheControlDirectives` (types.ts).  Optional booleans collapse to
`Bool` (only their truthiness is ever read); durations are optional
rationals. `private` is a Lean keyword, so that field is named `priv`. -/
structure CacheControlDirectives where
  public : Bool := false
  priv : ScopedFlag := .absent
  noCache : ScopedFlag := .absent
  noStore : Bool := false
  noTransform : Bool := false
  mustRevalidate : Bool := false
  proxyRevalidate : Bool := false
  mustUnderstand : Bool := false
  immutable : Bool := false
  maxAge : Option ℚ := none
  sMaxage : Option ℚ := none
  staleWhileRevalidate : Option ℚ := none
  staleIfError : Option ℚ := none
deriving DecidableEq, Repr

/-- Source `DIRECTIVE_ORDER` (plugin.ts lines 16–30): the canonical serialization
order. -/
def DIRECTIVE_ORDER : List String :=
  ["public", "private", "no-cache", "no-store", "no-transform",
   "must-revalidate", "proxy-revalidate", "must-understand", "immutable",
   "max-age", "s-maxage", "stale-while-revalidate", "stale-if-error"]

/-- Source `DEFAULT_STATUS_CODES` (plugin.ts line 35). -/
def DEFAULT_STATUS_CODES : List Nat :=
  [200, 201, 204, 206, 301, 302, 303, 304, 307, 308]

/-- Source `DEFAULT_METHODS` (plugin.ts line 40). -/
def DEFAULT_METHODS : List String := ["GET", "HEAD"]

/-- Source `validateDirectives` (plugin.ts lines 71–111): `public` together with a
truthy `private` is a conflict; then each duration, in source order, must
not be negative. -/
def validateDirectives (directives : CacheControlDirectives) :
    Except CCError Unit :=
  if directives.public && directives.priv.truthy then
    .error .conflict
  else if (directives.maxAge.elim false (fun q => decide (q < 0))) then
    .error (.invalidValue "maxAge")
  else if (directives.sMaxage.elim false (fun q => decide (q < 0))) then
    .error (.invalidValue "sMaxage")
  else if (directives.staleWhileRevalidate.elim false (fun q => decide (q < 0))) then
    .error (.invalidValue "staleWhileRevalidate")
  else if (directives.staleIfError.elim false (fun q => decide (q < 0))) then
    .error (.invalidValue "staleIfError")
  else
    .ok ()

/-- Model of `Math.round` on a non-special JavaScript number: round half toward
positive infinity, i.e. `⌊x + 1/2⌋`.  For `x = n/d` (`d > 0`) this is the
floor division `(2n + d) fdiv 2d`, which is how it is computed here;
`jsRound_eq_floor` below proves the two forms equal. -/
def jsRound (q : ℚ) : ℤ := (2 * q.num + (q.den : ℤ)).fdiv (2 * (q.den : ℤ))

/-- A value in the serializer's directive map: `true` (bare token) or a
string payload. -/
inductive TokenVal where
  | bare
  | val (s : String)
deriving DecidableEq, Repr

/-- The `private`/`no-cache` entries of the serializer's directive map
(plugin.ts lines 128–146): a truthy boolean gives a bare token; a
non-empty array gives `"name1, name2"` (quoted, joined with `, `); an
empty array sets no entry. -/
def scopedEntry : ScopedFlag → Option TokenVal
  | .absent => none
  | .flag => some .bare
  | .fields l =>
      if l.length > 0 then
        some (.val ("\"" ++ String.intercalate ", " l ++ "\""))
      else none

/-- The directive map built by `serializeDirectives` (plugin.ts lines
122–186), as a function from directive name to its entry. -/
def directiveEntry (d : CacheControlDirectives) : String → Option TokenVal
  | "public" => if d.public then some .bare else none
  | "private" => scopedEntry d.priv
  | "no-cache" => scopedEntry d.noCache
  | "no-store" => if d.noStore then some .bare else none
  | "no-transform" => if d.noTransform then some .bare else none
  | "must-revalidate" => if d.mustRevalidate then some .bare else none
  | "proxy-revalidate" => if d.proxyRevalidate then some .bare else none
  | "must-understand" => if d.mustUnderstand then some .bare else none
  | "immutable" => if d.immutable then some .bare else none
  | "max-age" => d.maxAge.map (fun q => .val (toString (jsRound q)))
  | "s-maxage" => d.sMaxage.map (fun q => .val (toString (jsRound q)))
  | "stale-while-revalidate" =>
      d.staleWhileRevalidate.map (fun q => .val (toString (jsRound q)))
  | "stale-if-error" => d.staleIfError.map (fun q => .val (toString (jsRound q)))
  | _ => none

/-- Rendering of one directive map entry into a part string
(plugin.ts lines 189–196): a bare token prints its name, a valued token
prints `name=value`. -/
def renderToken (d : CacheControlDirectives) (dir : String) : String :=
  match directiveEntry d dir with
  | some .bare => dir
  | some (.val v) => dir ++ "=" ++ v
  | none => ""

/-- The `parts` array of `serializeDirectives`: iterate `DIRECTIVE_ORDER`
and collect the present entries, rendered. -/
def serializeParts (d : CacheControlDirectives) : List String :=
  DIRECTIVE_ORDER.filterMap fun dir =>
    (directiveEntry d dir).map fun
      | .bare => dir
      | .val v => dir ++ "=" ++ v

/-- Source `serializeDirectives` (plugin.ts lines 116–199): validate, then join the
parts with `", "`. -/
def serializeDirectives (directives : CacheControlDirectives) :
    Except CCError String :=
  match validateDirectives directives with
  | .error e => .error e
  | .ok _ => .ok (String.intercalate ", " (serializeParts directives))

/-- Source `CACHE_PRESETS` (types.ts lines 33–48), as an association list in
declaration order. -/
def CACHE_PRESETS : List (String × CacheControlDirectives) :=
  [("static", { public := true, maxAge := some 31536000, immutable := true }),
   ("api", { priv := .flag, noCache := .flag }),
   ("realtime", { noStore := true }),
   ("page", { public := true, maxAge := some 3600, mustRevalidate := true }),
   ("private", { priv := .flag, maxAge := some 60, mustRevalidate := true })]

/-- The argument type of `resolveDirectives` with `undefined` stripped:
a concrete directive set, a preset name, or the `false` sentinel. -/
inductive CacheInput where
  | dirs (d : CacheControlDirectives)
  | preset (name : String)
  | disable
deriving DecidableEq, Repr

/-- The non-`undefined` results of `resolveDirectives`: a directive set, or
the explicit-disable sentinel (`false`). -/
inductive Resolved where
  | dirs (d : CacheControlDirectives)
  | disabled
deriving DecidableEq, Repr

/-- Source `resolveDirectives` (plugin.ts lines 50–66): `false` stays `false`,
`undefined` stays `undefined`, a string is looked up in `CACHE_PRESETS`
(unknown names raise `INVALID_PRESET`), and a directive set is returned
unchanged. -/
def resolveDirectives : Option CacheInput → Except CCError (Option Resolved)
  | none => .ok none
  | some .disable => .ok (some .disabled)
  | some (.preset name) =>
      match CACHE_PRESETS.find? (fun p => p.1 == name) with
      | some p => .ok (some (.dirs p.2))
      | none => .error (.invalidPreset name)
  | some (.dirs d) => .ok (some (.dirs d))

/-- Insertion-order iteration of a JavaScript `Set` under construction:
`seen` is the set built so far, elements already seen are dropped. -/
def jsSetDedupAux (seen : List String) : List String → List String
  | [] => []
  | x :: xs =>
      if seen.contains x then jsSetDedupAux seen xs
      else x :: jsSetDedupAux (x :: seen) xs

/-- Model of `[...new Set(xs)]` on strings: deduplicate keeping the first occurrence
of each element, preserving order. -/
def jsSetDedup (xs : List String) : List String := jsSetDedupAux [] xs

/-- JavaScript `String.prototype.toLowerCase` on the ASCII range:
lowercase every character. -/
def jsToLower (s : String) : String := String.mk (s.toList.map Char.toLower)

/-- JavaScript `String.prototype.trim`: strip whitespace from both ends. -/
def jsTrim (s : String) : String :=
  String.mk
    (((s.toList.dropWhile Char.isWhitespace).reverse.dropWhile
        Char.isWhitespace).reverse)

/-- Model of `String.prototype.split` with a one-character separator, on character
lists: splitting the empty string gives one empty group. -/
def splitCharsOn (sep : Char) : List Char → List (List Char)
  | [] => [[]]
  | c :: cs =>
      match splitCharsOn sep cs with
      | [] => if c = sep then [[], []] else [[c]]
      | g :: gs => if c = sep then [] :: g :: gs else (c :: g) :: gs

/-- Model of `s.split(sep)` for a one-character separator. -/
def splitOnChar (sep : Char) (s : String) : List String :=
  (splitCharsOn sep s.toList).map String.mk

/-- Model of `part.charAt(0).toUpperCase() + part.slice(1).toLowerCase()` on one
`-`-delimited segment. -/
def capitalizeSegment (part : String) : String :=
  match part.toList with
  | [] => ""
  | c :: cs => String.mk (c.toUpper :: cs.map Char.toLower)

/-- The per-field normalization of `extractVaryFields` (plugin.ts lines
216–225): lowercase-compare against the two well-known names, otherwise
title-case each `-`-delimited segment of the original spelling. -/
def normalizeFieldName (field : String) : String :=
  let normalized := jsToLower field
  if normalized = "cookie" then "Cookie"
  else if normalized = "authorization" || normalized = "auth" then "Authorization"
  else String.intercalate "-" ((splitOnChar '-' field).map capitalizeSegment)

/-- The field names a scoped flag contributes to the Vary computation:
its list when it is an array, nothing otherwise. -/
def ScopedFlag.fieldList : ScopedFlag → List String
  | .fields l => l
  | _ => []

/-- Source `extractVaryFields` (plugin.ts lines 204–226): concatenate the
`private` and `noCache` field lists, deduplicate (first occurrence wins,
before normalization), then normalize each name. -/
def extractVaryFields (directives : CacheControlDirectives) : List String :=
  (jsSetDedup (directives.priv.fieldList ++ directives.noCache.fieldList)).map
    normalizeFieldName

/-- The Vary merge of the `onSend` hook (plugin.ts lines 413–418): split an
existing truthy `Vary` value on `,` and trim each piece (a falsy value
gives the empty list), append the derived fields, deduplicate keeping
first occurrences. -/
def mergeVaryFields (existingVary : Option String) (varyFields : List String) :
    List String :=
  let existingFields :=
    match existingVary with
    | some s => if s ≠ "" then (splitOnChar ',' s).map jsTrim else []
    | none => []
  jsSetDedup (existingFields ++ varyFields)

/-- JavaScript line terminators, which `.` in a regular expression without
the `s` flag does not match. -/
def isLineTerminator (c : Char) : Bool :=
  c = '\n' || c = '\r' || c = ' ' || c = ' '

/-- Matching of the anchored regular expression `^p₀.*p₁.*⋯.*pₙ$` that
`matchesRule` compiles a wildcard pattern to (plugin.ts lines 244–248):
every non-`*` pattern character is literal (the source escapes all regex
metacharacters), and each `*` becomes `.*`, matching any run of
non-line-terminator characters.  The recursion is made structural on a
fuel argument; every step consumes a pattern or path character, so
`pat.length + path.length` fuel is always enough (`globChars` below). -/
def globCharsAux : Nat → List Char → List Char → Bool
  | _, [], cs => cs.isEmpty
  | 0, _ :: _, _ => false
  | fuel + 1, '*' :: ps, [] => globCharsAux fuel ps []
  | fuel + 1, '*' :: ps, c :: cs =>
      globCharsAux fuel ps (c :: cs) ||
        (!isLineTerminator c && globCharsAux fuel ('*' :: ps) cs)
  | _ + 1, _ :: _, [] => false
  | fuel + 1, p :: ps, c :: cs => p = c && globCharsAux fuel ps cs

/-- The anchored-regex match on explicit character lists, with enough fuel
for `globCharsAux` never to run out. -/
def globChars (ps cs : List Char) : Bool :=
  globCharsAux (ps.length + cs.length) ps cs

/-- The string-pattern branch of `matchesRule` (plugin.ts lines 244–251):
with a `*` the pattern is compiled to an anchored regex; without one, the
match is exact equality or prefix. -/
def stringPatternMatches (pat url : String) : Bool :=
  if pat.toList.contains '*' then globChars pat.toList url.toList
  else url == pat || pat.toList.isPrefixOf url.toList

/-- The request as seen by the engine: method and raw URL path. -/
structure Request where
  method : String
  url : String

/-- A rule matcher (`CacheRule.match`, types.ts lines 53–66): a string
pattern, a regular expression (embedded as its test function on the raw
path), or a predicate over the request. -/
inductive RuleMatcher where
  | str (pat : String)
  | regex (test : String → Bool)
  | pred (f : Request → Bool)

/-- Source `CacheRule` (types.ts): matcher plus cache outcome.  The `match` field
is named `rmatch` (`match` is a Lean keyword). -/
structure CacheRule where
  rmatch : RuleMatcher
  cache : CacheInput

/-- Source `matchesRule` (plugin.ts lines 231–252). -/
def matchesRule (request : Request) (rule : CacheRule) : Bool :=
  match rule.rmatch with
  | .pred f => f request
  | .regex test => test request.url
  | .str pat => stringPatternMatches pat request.url

/-- Source `findMatchingRule` (plugin.ts lines 257–264): first matching rule in
declaration order, if any. -/
def findMatchingRule (request : Request) (rules : List CacheRule) :
    Option CacheRule :=
  rules.find? (matchesRule request)

/-- Source `CdnCacheOptions` (types.ts lines 71–83). -/
structure CdnCacheOptions where
  directives : Option CacheControlDirectives := none
  header : Option String := none

/-- The plugin configuration as it stands after initialization
(plugin.ts lines 282–300): defaults are already resolved once through
`resolveDirectives` (`resolvedDefaults`), the other options carry their
source defaults. -/
structure PluginConfig where
  resolvedDefaults : Option Resolved := none
  statusCodes : List Nat := DEFAULT_STATUS_CODES
  methods : List String := DEFAULT_METHODS
  rules : List CacheRule := []
  cdn : Option CdnCacheOptions := none
  autoVary : Bool := true

/-- The response headers the hook reads and writes.  `cdn` holds the
header written under the configured CDN header name, as a name/value
pair. -/
structure Headers where
  cacheControl : Option String := none
  vary : Option String := none
  cdn : Option (String × String) := none
deriving DecidableEq, Repr

/-- The reply as seen by the hook: status code, the hidden per-response
override slot (`reply[CACHE_SYMBOL]`, always a directive set or null —
the decorators never store `false`), the route config `cache` attribute,
and the headers already present. -/
structure Reply where
  statusCode : Nat
  cacheSlot : Option CacheControlDirectives := none
  routeConfig : Option CacheInput := none
  headers : Headers := {}

/-- JavaScript truthiness of an optional header value: absent and the
empty string are falsy. -/
def truthyHeader : Option String → Bool
  | some s => s ≠ ""
  | none => false

/-- Steps 1–4 of the `onSend` hook's directive determination
(plugin.ts lines 364–397): reply-level slot (truthy check), then route
config (`!== undefined` check), then — when the rule list is non-empty —
the first matching rule, then the global defaults (truthy check, so an
explicitly disabled default would be ignored). -/
def determineDirectives (cfg : PluginConfig) (request : Request)
    (reply : Reply) : Except CCError (Option Resolved) :=
  match reply.cacheSlot with
  | some d => .ok (some (.dirs d))
  | none =>
    match reply.routeConfig with
    | some routeConfig => resolveDirectives (some routeConfig)
    | none =>
      match (if cfg.rules.length > 0 then findMatchingRule request cfg.rules
             else none) with
      | some rule => resolveDirectives (some rule.cache)
      | none =>
        match cfg.resolvedDefaults with
        | some (.dirs d) => .ok (some (.dirs d))
        | _ => .ok none

/-- Source `cdn.header || 'CDN-Cache-Control'` (plugin.ts line 425): a falsy
configured name (absent or empty) falls back to the default. -/
def cdnHeaderName (c : CdnCacheOptions) : String :=
  match c.header with
  | some h => if h = "" then "CDN-Cache-Control" else h
  | none => "CDN-Cache-Control"

/-- The auto-Vary step of the hook (plugin.ts lines 410–421): when
`autoVary` is on and the directive set yields field names, merge with the
existing `Vary` value and write the result; otherwise leave the headers
alone. -/
def applyVary (cfg : PluginConfig) (d : CacheControlDirectives)
    (hs1 : Headers) : Headers :=
  if cfg.autoVary then
    if (extractVaryFields d).length > 0 then
      { hs1 with vary := some (String.intercalate ", "
          (mergeVaryFields hs1.vary (extractVaryFields d))) }
    else hs1
  else hs1

/-- The CDN step of the hook (plugin.ts lines 424–429): when a CDN
directive set is configured, serialize it (validation included) and write
it under the configured header name; a serialization error is raised
after the primary headers were already written. -/
def applyCdn (cfg : PluginConfig) (hs2 : Headers) : Headers × Option CCError :=
  match cfg.cdn with
  | some c =>
    match c.directives with
    | some cdnDirectives =>
      match serializeDirectives cdnDirectives with
      | .error e => (hs2, some e)
      | .ok cdnValue =>
          ({ hs2 with cdn := some (cdnHeaderName c, cdnValue) }, none)
    | none => (hs2, none)
  | none => (hs2, none)

/-- The `onSend` hook (plugin.ts lines 345–433), as a function from the
configuration, request and reply to the final headers plus the error
raised, if any.  Header writes happen in source order, so the headers
returned alongside an error are exactly those already written when the
error was raised. -/
def onSend (cfg : PluginConfig) (request : Request) (reply : Reply) :
    Headers × Option CCError :=
  let hs := reply.headers
  if truthyHeader hs.cacheControl then (hs, none)
  else if !(cfg.methods.contains request.method) then (hs, none)
  else if !(cfg.statusCodes.contains reply.statusCode) then (hs, none)
  else
    match determineDirectives cfg request reply with
    | .error e => (hs, some e)
    | .ok none => (hs, none)
    | .ok (some .disabled) => ({ hs with cacheControl := some "no-store" }, none)
    | .ok (some (.dirs d)) =>
      match serializeDirectives d with
      | .error e => (hs, some e)
      | .ok headerValue =>
        applyCdn cfg (applyVary cfg d { hs with cacheControl := some headerValue })

/-! ### General lemmas -/

theorem filterMap_eq_map_filter {α β : Type} (f : α → Option β) (g : α → β)
    (hfg : ∀ a b, f a = some b → b = g a) :
    ∀ l : List α, l.filterMap f = (l.filter fun a => (f a).isSome).map g := by
  intro l
  induction l with
  | nil => rfl
  | cons x xs ih =>
    cases hx : f x with
    | none => simp [List.filterMap_cons, List.filter_cons, hx, ih]
    | some b =>
      simp [List.filterMap_cons, List.filter_cons, hx, ih, hfg x b hx]

/-- The parts list of the serializer is the canonical order filtered down
to the present directives, each rendered. -/
theorem serializeParts_eq_filter (d : CacheControlDirectives) :
    serializeParts d =
      (DIRECTIVE_ORDER.filter fun dir => (directiveEntry d dir).isSome).map
        (renderToken d) := by
  have hfg : ∀ (a : String) (b : String),
      ((directiveEntry d a).map fun
        | .bare => a
        | .val v => a ++ "=" ++ v) = some b → b = renderToken d a := by
    intro a b hab
    unfold renderToken
    cases hde : directiveEntry d a with
    | none => simp [hde] at hab
    | some tv =>
      rw [hde] at hab
      cases tv <;> simp at hab <;> simp [hab]
  have h := filterMap_eq_map_filter
    (fun dir => (directiveEntry d dir).map fun
      | .bare => dir
      | .val v => dir ++ "=" ++ v)
    (renderToken d) hfg DIRECTIVE_ORDER
  have hcond : ∀ dir : String,
      ((directiveEntry d dir).map fun
        | .bare => dir
        | .val v => dir ++ "=" ++ v).isSome = (directiveEntry d dir).isSome := by
    intro dir
    cases directiveEntry d dir <;> rfl
  unfold serializeParts
  rw [h]
  congr 1
  apply List.filter_congr
  intro dir _
  exact hcond dir

/-! ### Claim C2 -/

/-- Claim C2: for every valid Directive Set the serializer emits the
present directives' tokens in the one fixed canonical order
(`DIRECTIVE_ORDER`), joined with `", "`; in particular
`serialize({public:true, maxAge:3600, staleWhileRevalidate:60})`,
`serialize({private:["cookie","auth"]})` and the fully absent set
serialize as claimed. -/
theorem claim_C2_serialize_canonical_order :
    (∀ d s, serializeDirectives d = .ok s →
      ∃ present, present.Sublist DIRECTIVE_ORDER ∧
        present = DIRECTIVE_ORDER.filter
          (fun dir => (directiveEntry d dir).isSome) ∧
        s = String.intercalate ", " (present.map (renderToken d))) ∧
    serializeDirectives { public := true, maxAge := some 3600, staleWhileRevalidate := some 60 }
      = .ok "public, max-age=3600, stale-while-revalidate=60" ∧
    serializeDirectives { priv := .fields ["cookie", "auth"] }
      = .ok "private=\"cookie, auth\"" ∧
    serializeDirectives {} = .ok "" := by
  refine ⟨?_, rfl, rfl, rfl⟩
  intro d s h
  refine ⟨_, List.filter_sublist _, rfl, ?_⟩
  unfold serializeDirectives at h
  cases hv : validateDirectives d with
  | error e => rw [hv] at h; cases h
  | ok u =>
    rw [hv] at h
    cases h
    rw [serializeParts_eq_filter]

/-- Witness for C2 at a concrete valid Directive Set. -/
theorem claim_C2_witness :
    ∃ present, present.Sublist DIRECTIVE_ORDER ∧
      present = DIRECTIVE_ORDER.filter
        (fun dir => (directiveEntry { public := true } dir).isSome) ∧
      "public" = String.intercalate ", "
        (present.map (renderToken { public := true })) :=
  claim_C2_serialize_canonical_order.1 { public := true } "public" rfl

/-! ### Claim C4 -/

/-- The serializer's directive map does not distinguish an empty-list
`private` from an absent one. -/
theorem directiveEntry_priv_empty (d : CacheControlDirectives) :
    directiveEntry { d with priv := .fields [] } =
      directiveEntry { d with priv := .absent } := by
  funext s
  simp only [directiveEntry]
  split <;> rfl

/-- The serializer's directive map does not distinguish an empty-list
`noCache` from an absent one. -/
theorem directiveEntry_noCache_empty (d : CacheControlDirectives) :
    directiveEntry { d with noCache := .fields [] } =
      directiveEntry { d with noCache := .absent } := by
  funext s
  simp only [directiveEntry]
  split <;> rfl

/-- Counterexample to claim C4: a Directive Set with `public: true` and
`private: []` is NOT valid — the validator's truthiness check sees the
empty array as truthy and raises a ConflictError. -/
theorem claim_C4_empty_list_cex :
    validateDirectives { public := true, priv := .fields [] } =
      .error .conflict := rfl

/-- Claim C4 as amended: an empty field-name list under a scoped flag
emits no token (`serialize({private:[], maxAge:60}) = "max-age=60"`, and
substituting an empty list for an absent flag never changes the
serialized string when the set still validates — always for `noCache`,
and for `private` whenever `public` is not set) — but for validation an
empty list is truthy, so `public` together with `private: []` raises a
ConflictError for every Directive Set. -/
theorem claim_C4_empty_list_amended :
    serializeDirectives { priv := .fields [], maxAge := some 60 } = .ok "max-age=60" ∧
    (∀ d : CacheControlDirectives, d.public = false →
      serializeDirectives { d with priv := .fields [] } =
        serializeDirectives { d with priv := .absent }) ∧
    (∀ d : CacheControlDirectives,
      serializeDirectives { d with noCache := .fields [] } =
        serializeDirectives { d with noCache := .absent }) ∧
    (ScopedFlag.fields []).truthy = true ∧
    (∀ d : CacheControlDirectives,
      validateDirectives { d with public := true, priv := .fields [] } =
        .error .conflict) := by
  refine ⟨rfl, ?_, ?_, rfl, ?_⟩
  · intro d h
    have hv : validateDirectives { d with priv := .fields [] } =
        validateDirectives { d with priv := .absent } := by
      simp [validateDirectives, h]
    have hp : serializeParts { d with priv := .fields [] } =
        serializeParts { d with priv := .absent } := by
      unfold serializeParts
      rw [directiveEntry_priv_empty]
    unfold serializeDirectives
    rw [hv, hp]
  · intro d
    have hv : validateDirectives { d with noCache := .fields [] } =
        validateDirectives { d with noCache := .absent } := by
      simp [validateDirectives]
    have hp : serializeParts { d with noCache := .fields [] } =
        serializeParts { d with noCache := .absent } := by
      unfold serializeParts
      rw [directiveEntry_noCache_empty]
    unfold serializeDirectives
    rw [hv, hp]
  · intro d
    simp [validateDirectives, ScopedFlag.truthy]

/-- Witness for C4's amended claim at a concrete Directive Set. -/
theorem claim_C4_witness :
    serializeDirectives { ({ maxAge := some 60 } : CacheControlDirectives) with priv := .fields [] } =
      serializeDirectives { ({ maxAge := some 60 } : CacheControlDirectives) with priv := .absent } :=
  claim_C4_empty_list_amended.2.1 { maxAge := some 60 } rfl

/-! ### Claim C5 -/

/-- Counterexample to claim C5: `"private-user-data"` is not in the preset
enumeration — resolving it raises an unknown-preset error instead of
returning a Directive Set. -/
theorem claim_C5_preset_cex :
    resolveDirectives (some (.preset "private-user-data")) =
      .error (.invalidPreset "private-user-data") := rfl

/-- Claim C5 as amended: the boolean-false sentinel resolves to
explicit-disable, absent input resolves to absent, each name of the closed
enumeration `static`, `api`, `realtime`, `page`, `private` (not
`private-user-data`) resolves to its one fixed Directive Set, a concrete
Directive Set is returned unchanged, and any name outside the enumeration
fails with an unknown-preset error. -/
theorem claim_C5_preset_registry_amended :
    resolveDirectives (some .disable) = .ok (some .disabled) ∧
    resolveDirectives none = .ok none ∧
    resolveDirectives (some (.preset "static")) =
      .ok (some (.dirs { public := true, maxAge := some 31536000, immutable := true })) ∧
    resolveDirectives (some (.preset "api")) =
      .ok (some (.dirs { priv := .flag, noCache := .flag })) ∧
    resolveDirectives (some (.preset "realtime")) =
      .ok (some (.dirs { noStore := true })) ∧
    resolveDirectives (some (.preset "page")) =
      .ok (some (.dirs { public := true, maxAge := some 3600, mustRevalidate := true })) ∧
    resolveDirectives (some (.preset "private")) =
      .ok (some (.dirs { priv := .flag, maxAge := some 60, mustRevalidate := true })) ∧
    (∀ d : CacheControlDirectives,
      resolveDirectives (some (.dirs d)) = .ok (some (.dirs d))) ∧
    (∀ name : String, name ∉ ["static", "api", "realtime", "page", "private"] →
      resolveDirectives (some (.preset name)) = .error (.invalidPreset name)) := by
  refine ⟨rfl, rfl, rfl, rfl, rfl, rfl, rfl, fun d => rfl, ?_⟩
  intro name h
  have hfind : CACHE_PRESETS.find? (fun p => p.1 == name) = none := by
    apply List.find?_eq_none.mpr
    intro p hp
    fin_cases hp <;>
      simpa [beq_eq_false_iff_ne] using fun he => h (by simp [← he])
  simp [resolveDirectives, hfind]

/-- Witness for C5's amended claim at a concrete unknown preset name. -/
theorem claim_C5_witness :
    resolveDirectives (some (.preset "bogus")) = .error (.invalidPreset "bogus") :=
  claim_C5_preset_registry_amended.2.2.2.2.2.2.2.2 "bogus" (by decide)

/-! ### Claim C8 -/

/-- Modelled from the spec: round half away from zero — for non-negative
inputs `⌊x + 1/2⌋`, for negative inputs the mirrored form.  Stated by the
spec as the rounding applied to durations; compared against `jsRound`
(the code's `Math.round`). -/
def roundHalfAwayFromZero (q : ℚ) : ℤ :=
  if 0 ≤ q then ⌊q + 1/2⌋ else -⌊-q + 1/2⌋

/-- The integer form of `Math.round` agrees with `⌊x + 1/2⌋`. -/
theorem jsRound_eq_floor (q : ℚ) : jsRound q = ⌊q + 1/2⌋ := by
  have hd : ((q.den : ℚ)) ≠ 0 := by
    exact_mod_cast Nat.pos_iff_ne_zero.mp q.den_pos
  have key : q + 1/2 =
      (((2 * q.num + (q.den : ℤ)) : ℤ) : ℚ) / (((2 * q.den : ℕ) : ℕ) : ℚ) := by
    have h := Rat.num_div_den q
    conv_lhs => rw [← h]
    push_cast
    field_simp
    ring
  rw [key, Rat.floor_intCast_div_natCast]
  unfold jsRound
  rw [Int.fdiv_eq_ediv _ (by positivity)]
  norm_num

/-- Rounding an integer value returns that integer. -/
theorem jsRound_intCast (n : ℤ) : jsRound ((n : ℤ) : ℚ) = n := by
  rw [jsRound_eq_floor]
  apply Int.floor_eq_iff.mpr
  constructor
  · linarith
  · linarith

/-- Rounding a non-negative value gives a non-negative integer. -/
theorem jsRound_nonneg {x : ℚ} (hx : 0 ≤ x) : 0 ≤ jsRound x := by
  rw [jsRound_eq_floor]
  apply Int.le_floor.mpr
  push_cast
  linarith

/-- Claim C8: non-integer durations are accepted without error for every
valid (non-negative) value and rounded only at serialization time;
`serialize({maxAge:3600.7}) = "max-age=3601"`; rounding is idempotent
(serializing the already-rounded integer yields the same string); and on
non-negative durations the rounding is round-half-away-from-zero. -/
theorem claim_C8_duration_rounding :
    serializeDirectives { maxAge := some (3600.7 : ℚ) } = .ok "max-age=3601" ∧
    (∀ x : ℚ, 0 ≤ x → ∃ s, serializeDirectives { maxAge := some x } = .ok s) ∧
    (∀ x : ℚ, 0 ≤ x →
      serializeDirectives { maxAge := some ((jsRound x : ℤ) : ℚ) } =
        serializeDirectives { maxAge := some x }) ∧
    (∀ x : ℚ, 0 ≤ x → jsRound x = roundHalfAwayFromZero x) := by
  refine ⟨?_, ?_, ?_, ?_⟩
  · rw [show (3600.7 : ℚ) = mkRat 36007 10 by norm_num]
    exact rfl
  · intro x hx
    have hneg : (decide (x < 0)) = false := decide_eq_false (not_lt.mpr hx)
    have hval : validateDirectives { maxAge := some x } = .ok () := by
      simp [validateDirectives, hneg]
    exact ⟨_, by unfold serializeDirectives; rw [hval]⟩
  · intro x hx
    have h1 : jsRound ((jsRound x : ℤ) : ℚ) = jsRound x := jsRound_intCast _
    have hneg : (decide (x < 0)) = false := decide_eq_false (not_lt.mpr hx)
    have hcast : (0 : ℚ) ≤ ((jsRound x : ℤ) : ℚ) := by
      exact_mod_cast jsRound_nonneg hx
    have hneg2 : (decide (((jsRound x : ℤ) : ℚ) < 0)) = false :=
      decide_eq_false (not_lt.mpr hcast)
    have hval1 : validateDirectives { maxAge := some ((jsRound x : ℤ) : ℚ) } = .ok () := by
      simp [validateDirectives, hneg2, jsRound_nonneg hx]
    have hval2 : validateDirectives { maxAge := some x } = .ok () := by
      simp [validateDirectives, hneg]
    have hent : directiveEntry { maxAge := some ((jsRound x : ℤ) : ℚ) } =
        directiveEntry { maxAge := some x } := by
      funext s
      simp only [directiveEntry]
      split <;> simp [h1]
    unfold serializeDirectives
    rw [hval1, hval2]
    unfold serializeParts
    rw [hent]
  · intro x hx
    unfold roundHalfAwayFromZero
    rw [if_pos hx, jsRound_eq_floor]

/-- Witness for C8 at the concrete duration 3600.7. -/
theorem claim_C8_witness :
    (∃ s, serializeDirectives { maxAge := some (3600.7 : ℚ) } = .ok s) ∧
    jsRound (3600.7 : ℚ) = roundHalfAwayFromZero (3600.7 : ℚ) :=
  ⟨claim_C8_duration_rounding.2.1 3600.7 (by norm_num),
   claim_C8_duration_rounding.2.2.2 3600.7 (by norm_num)⟩

/-! ### Claim C7 -/

/-- Claim C7: a wildcard string pattern is anchored against the full path
with `*` matching any substring (`"/api/*"` matches `"/api/x/y"`, and the
end anchor rejects `"*.js"` against `"/app.jssx"`); a wildcard-free string
matches by exact equality or path-prefix (`"/api/users"` matches
`"/api/users/42"`); rules are evaluated strictly in declaration order with
the first matching rule selected, so
`[{"/api/public/*": A}, {"/api/*": B}]` yields A for `"/api/public/data"`
and B for `"/api/private/data"`. -/
theorem claim_C7_pattern_matching :
    stringPatternMatches "/api/users" "/api/users/42" = true ∧
    stringPatternMatches "/api/*" "/api/x/y" = true ∧
    stringPatternMatches "*.js" "/app.jsx" = false ∧
    stringPatternMatches "*.js" "/app.js" = true ∧
    (∀ pat url : String, pat.toList.contains '*' = false →
      stringPatternMatches pat url =
        (url == pat || pat.toList.isPrefixOf url.toList)) ∧
    (∀ (request : Request) (rule : CacheRule) (rest : List CacheRule),
      findMatchingRule request (rule :: rest) =
        if matchesRule request rule then some rule
        else findMatchingRule request rest) ∧
    ((findMatchingRule ⟨"GET", "/api/public/data"⟩
        [⟨.str "/api/public/*", .dirs { maxAge := some 60 }⟩,
         ⟨.str "/api/*", .dirs { noStore := true }⟩]).map CacheRule.cache
      = some (.dirs { maxAge := some 60 })) ∧
    ((findMatchingRule ⟨"GET", "/api/private/data"⟩
        [⟨.str "/api/public/*", .dirs { maxAge := some 60 }⟩,
         ⟨.str "/api/*", .dirs { noStore := true }⟩]).map CacheRule.cache
      = some (.dirs { noStore := true })) := by
  refine ⟨rfl, rfl, rfl, rfl, ?_, ?_, rfl, rfl⟩
  · intro pat url h
    unfold stringPatternMatches
    rw [h]
    simp
  · intro request rule rest
    by_cases h : matchesRule request rule
    · simp [findMatchingRule, List.find?_cons_of_pos _ h, h]
    · simp [findMatchingRule, List.find?_cons_of_neg _ h, h]

/-- Witness for C7's wildcard-free clause at a concrete pattern and path. -/
theorem claim_C7_witness :
    stringPatternMatches "/api/users" "/api/users/42" =
      ("/api/users/42" == "/api/users" ||
        "/api/users".toList.isPrefixOf "/api/users/42".toList) :=
  claim_C7_pattern_matching.2.2.2.2.1 "/api/users" "/api/users/42" rfl

/-! ### Claim C9 -/

theorem jsSetDedupAux_sublist (l : List String) :
    ∀ seen, (jsSetDedupAux seen l).Sublist l := by
  induction l with
  | nil => intro seen; exact List.Sublist.refl []
  | cons x xs ih =>
    intro seen
    unfold jsSetDedupAux
    by_cases h : seen.contains x
    · rw [if_pos h]
      exact (ih seen).cons x
    · rw [if_neg h]
      exact (ih (x :: seen)).cons₂ x

theorem jsSetDedupAux_mem_iff (l : List String) :
    ∀ seen y, y ∈ jsSetDedupAux seen l ↔ (y ∈ l ∧ seen.contains y = false) := by
  induction l with
  | nil => intro seen y; simp [jsSetDedupAux]
  | cons x xs ih =>
    intro seen y
    unfold jsSetDedupAux
    by_cases h : seen.contains x
    · rw [if_pos h]
      rw [ih seen y]
      constructor
      · rintro ⟨hy, hs⟩; exact ⟨List.mem_cons_of_mem x hy, hs⟩
      · rintro ⟨hy, hs⟩
        rcases List.mem_cons.mp hy with rfl | hy
        · rw [h] at hs; cases hs
        · exact ⟨hy, hs⟩
    · rw [if_neg h]
      constructor
      · intro hy
        rcases List.mem_cons.mp hy with rfl | hy
        · exact ⟨List.mem_cons_self y xs, by simpa using h⟩
        · obtain ⟨hy', hs⟩ := (ih (x :: seen) y).mp hy
          simp only [List.contains_cons, Bool.or_eq_false_iff] at hs
          exact ⟨List.mem_cons_of_mem x hy', hs.2⟩
      · rintro ⟨hy, hs⟩
        rcases List.mem_cons.mp hy with rfl | hy
        · exact List.mem_cons_self y _
        · by_cases hxy : y = x
          · subst hxy; exact List.mem_cons_self y _
          · apply List.mem_cons_of_mem
            apply (ih (x :: seen) y).mpr
            refine ⟨hy, ?_⟩
            simp only [List.contains_cons, Bool.or_eq_false_iff]
            exact ⟨beq_eq_false_iff_ne.mpr hxy, hs⟩

theorem jsSetDedupAux_nodup (l : List String) :
    ∀ seen, (jsSetDedupAux seen l).Nodup := by
  induction l with
  | nil => intro seen; exact List.nodup_nil
  | cons x xs ih =>
    intro seen
    unfold jsSetDedupAux
    by_cases h : seen.contains x
    · rw [if_pos h]; exact ih seen
    · rw [if_neg h]
      refine List.nodup_cons.mpr ⟨?_, ih (x :: seen)⟩
      intro hx
      obtain ⟨-, hs⟩ := (jsSetDedupAux_mem_iff xs (x :: seen) x).mp hx
      simp [List.contains_cons] at hs

/-- Claim C9: `deriveVaryFields` collects the `private` and `no-cache`
field lists, deduplicates preserving first-occurrence order, then
normalizes each name; `{private:["cookie","authorization"]}` yields
`["Cookie","Authorization"]`, and merging with an existing
`Vary: Accept-Encoding` yields `"Accept-Encoding, Cookie, Authorization"`
with no duplicates; the result is empty when no scoped field names are
present. -/
theorem claim_C9_vary_derivation :
    extractVaryFields { priv := .fields ["cookie", "authorization"] }
      = ["Cookie", "Authorization"] ∧
    mergeVaryFields (some "Accept-Encoding") ["Cookie", "Authorization"]
      = ["Accept-Encoding", "Cookie", "Authorization"] ∧
    normalizeFieldName "auth" = "Authorization" ∧
    normalizeFieldName "accept-encoding" = "Accept-Encoding" ∧
    normalizeFieldName "x-custom-header" = "X-Custom-Header" ∧
    (∀ d : CacheControlDirectives,
      d.priv.fieldList = [] → d.noCache.fieldList = [] →
      extractVaryFields d = []) ∧
    (∀ l : List String, (jsSetDedup l).Sublist l ∧ (jsSetDedup l).Nodup ∧
      (∀ y, y ∈ jsSetDedup l ↔ y ∈ l)) ∧
    (∀ (existingVary : Option String) (varyFields : List String),
      (mergeVaryFields existingVary varyFields).Nodup) ∧
    (onSend { resolvedDefaults := some (.dirs { priv := .fields ["cookie", "authorization"] }) }
        ⟨"GET", "/"⟩
        { statusCode := 200, headers := { vary := some "Accept-Encoding" } }).1.vary
      = some "Accept-Encoding, Cookie, Authorization" := by
  refine ⟨rfl, rfl, rfl, rfl, rfl, ?_, ?_, ?_, rfl⟩
  · intro d h1 h2
    unfold extractVaryFields
    rw [h1, h2]
    rfl
  · intro l
    refine ⟨jsSetDedupAux_sublist l [], jsSetDedupAux_nodup l [], ?_⟩
    intro y
    rw [jsSetDedup, jsSetDedupAux_mem_iff l [] y]
    simp
  · intro existingVary varyFields
    unfold mergeVaryFields
    exact jsSetDedupAux_nodup _ []

/-- Witness for C9's empty-derivation clause at a concrete Directive
Set with a boolean `private`. -/
theorem claim_C9_witness :
    extractVaryFields { priv := .flag } = [] :=
  claim_C9_vary_derivation.2.2.2.2.2.1 { priv := .flag } rfl rfl

/-! ### Hook-level helper lemmas -/

theorem applyVary_cacheControl (cfg : PluginConfig) (d : CacheControlDirectives)
    (hs : Headers) : (applyVary cfg d hs).cacheControl = hs.cacheControl := by
  unfold applyVary
  split
  · split <;> rfl
  · rfl

theorem applyVary_cdn (cfg : PluginConfig) (d : CacheControlDirectives)
    (hs : Headers) : (applyVary cfg d hs).cdn = hs.cdn := by
  unfold applyVary
  split
  · split <;> rfl
  · rfl

theorem applyCdn_cacheControl (cfg : PluginConfig) (hs : Headers) :
    (applyCdn cfg hs).1.cacheControl = hs.cacheControl := by
  unfold applyCdn
  split
  · split
    · split <;> rfl
    · rfl
  · rfl

/-! ### Claim C6 -/

/-- Claim C6: a response that already carries a (non-empty, hence truthy)
`Cache-Control` value is returned untouched by the hook under every
configuration — no header is added or altered and no error is raised. -/
theorem claim_C6_existing_header_untouched :
    ∀ (cfg : PluginConfig) (request : Request) (reply : Reply) (s : String),
      reply.headers.cacheControl = some s → s ≠ "" →
      onSend cfg request reply = (reply.headers, none) := by
  intro cfg request reply s h1 h2
  have ht : truthyHeader reply.headers.cacheControl = true := by
    rw [h1]
    simpa [truthyHeader] using h2
  simp only [onSend, ht]
  simp

/-- Witness for C6 at a concrete response carrying `Cache-Control:
no-store`. -/
theorem claim_C6_witness :
    onSend {} ⟨"GET", "/"⟩ { statusCode := 200, headers := { cacheControl := some "no-store" } }
      = ({ cacheControl := some "no-store" }, none) :=
  claim_C6_existing_header_untouched {} ⟨"GET", "/"⟩ _ "no-store" rfl (by decide)

/-! ### Claim C10 -/

/-- Claim C10: the short-circuit tests the existing `Cache-Control` value
for truthiness, not presence — a present-but-empty value does not skip
resolution: the sources are consulted and a resolved outcome (a serialized
set, or no-store on explicit-disable) overwrites the empty string. -/
theorem claim_C10_empty_header_not_skipped :
    (∀ (cfg : PluginConfig) (request : Request) (reply : Reply)
        (d : CacheControlDirectives) (v : String),
      reply.headers.cacheControl = some "" →
      cfg.methods.contains request.method = true →
      cfg.statusCodes.contains reply.statusCode = true →
      determineDirectives cfg request reply = .ok (some (.dirs d)) →
      serializeDirectives d = .ok v →
      (onSend cfg request reply).1.cacheControl = some v) ∧
    (∀ (cfg : PluginConfig) (request : Request) (reply : Reply),
      reply.headers.cacheControl = some "" →
      cfg.methods.contains request.method = true →
      cfg.statusCodes.contains reply.statusCode = true →
      determineDirectives cfg request reply = .ok (some .disabled) →
      (onSend cfg request reply).1.cacheControl = some "no-store") ∧
    (onSend { resolvedDefaults := some (.dirs { public := true }) } ⟨"GET", "/"⟩
        { statusCode := 200, headers := { cacheControl := some "" } })
      = ({ cacheControl := some "public" }, none) := by
  refine ⟨?_, ?_, rfl⟩
  · intro cfg request reply d v h0 hm hsc hdet hser
    have ht : truthyHeader reply.headers.cacheControl = false := by
      rw [h0]
      simp [truthyHeader]
    simp only [onSend, ht, hm, hsc, hdet, hser]
    simp [applyCdn_cacheControl, applyVary_cacheControl]
  · intro cfg request reply h0 hm hsc hdet
    have ht : truthyHeader reply.headers.cacheControl = false := by
      rw [h0]
      simp [truthyHeader]
    simp only [onSend, ht, hm, hsc, hdet]
    simp

/-- Witness for C10: an empty-string `Cache-Control` gets overwritten by
the resolved default. -/
theorem claim_C10_witness :
    (onSend { resolvedDefaults := some (.dirs { noStore := true }) } ⟨"GET", "/"⟩
        { statusCode := 200, headers := { cacheControl := some "" } }).1.cacheControl
      = some "no-store" :=
  claim_C10_empty_header_not_skipped.1 _ ⟨"GET", "/"⟩ _ { noStore := true }
    "no-store" rfl rfl rfl rfl rfl

/-! ### Claim C1 -/

/-- Claim C1: the four tiers are consulted in the strict order
per-response override, route config, first matching rule, global
defaults, and the first tier yielding a defined outcome stops the
search — an override wins regardless of the other tiers, a defined route
config decides the outcome (explicit-disable included, since
`resolveDirectives` never returns "undefined" on defined input), a
matching rule decides it when the earlier tiers are absent, and the
defaults are consulted last (under a truthiness check); when, in
addition, the response is eligible, the emitted header is exactly the
serialization of the override. -/
theorem claim_C1_resolution_priority :
    (∀ (cfg : PluginConfig) (request : Request) (reply : Reply)
        (d : CacheControlDirectives), reply.cacheSlot = some d →
      determineDirectives cfg request reply = .ok (some (.dirs d))) ∧
    (∀ (cfg : PluginConfig) (request : Request) (reply : Reply)
        (rc : CacheInput), reply.cacheSlot = none → reply.routeConfig = some rc →
      determineDirectives cfg request reply = resolveDirectives (some rc)) ∧
    (∀ (cfg : PluginConfig) (request : Request) (reply : Reply)
        (rule : CacheRule), reply.cacheSlot = none → reply.routeConfig = none →
      findMatchingRule request cfg.rules = some rule →
      determineDirectives cfg request reply = resolveDirectives (some rule.cache)) ∧
    (∀ (cfg : PluginConfig) (request : Request) (reply : Reply),
      reply.cacheSlot = none → reply.routeConfig = none →
      findMatchingRule request cfg.rules = none →
      determineDirectives cfg request reply =
        .ok (match cfg.resolvedDefaults with
             | some (.dirs d) => some (.dirs d)
             | _ => none)) ∧
    (∀ (cfg : PluginConfig) (request : Request) (reply : Reply)
        (d : CacheControlDirectives) (v : String),
      truthyHeader reply.headers.cacheControl = false →
      cfg.methods.contains request.method = true →
      cfg.statusCodes.contains reply.statusCode = true →
      reply.cacheSlot = some d →
      serializeDirectives d = .ok v →
      (onSend cfg request reply).1.cacheControl = some v) := by
  refine ⟨?_, ?_, ?_, ?_, ?_⟩
  · intro cfg request reply d h
    unfold determineDirectives
    rw [h]
  · intro cfg request reply rc h1 h2
    unfold determineDirectives
    rw [h1, h2]
  · intro cfg request reply rule h1 h2 h3
    have hlen : cfg.rules.length > 0 := by
      cases hr : cfg.rules with
      | nil => rw [hr] at h3; cases h3
      | cons a l => simp [hr]
    unfold determineDirectives
    rw [h1, h2, if_pos hlen, h3]
  · intro cfg request reply h1 h2 h3
    have hguard : (if cfg.rules.length > 0 then findMatchingRule request cfg.rules
        else none) = none := by
      split
      · exact h3
      · rfl
    unfold determineDirectives
    rw [h1, h2, hguard]
    cases hd : cfg.resolvedDefaults with
    | none => rfl
    | some r => cases r <;> rfl
  · intro cfg request reply d v ht hm hsc hslot hser
    have hdet : determineDirectives cfg request reply = .ok (some (.dirs d)) := by
      unfold determineDirectives
      rw [hslot]
    simp only [onSend, ht, hm, hsc, hdet, hser]
    simp [applyCdn_cacheControl, applyVary_cacheControl]

/-- Witness for C1 with all four tiers defined for one response: the
outcome is the override's Directive Set, and the emitted header its
serialization. -/
theorem claim_C1_witness :
    determineDirectives { resolvedDefaults := some (.dirs { noStore := true }), rules := [⟨.str "/", .dirs { noTransform := true }⟩] } ⟨"GET", "/"⟩ { statusCode := 200, cacheSlot := some { public := true }, routeConfig := some (.dirs { mustRevalidate := true }) }
      = .ok (some (.dirs { public := true })) ∧
    (onSend { resolvedDefaults := some (.dirs { noStore := true }), rules := [⟨.str "/", .dirs { noTransform := true }⟩] } ⟨"GET", "/"⟩ { statusCode := 200, cacheSlot := some { public := true }, routeConfig := some (.dirs { mustRevalidate := true }) }).1.cacheControl
      = some "public" :=
  ⟨claim_C1_resolution_priority.1 _ _ _ _ rfl,
   claim_C1_resolution_priority.2.2.2.2 _ _ _ { public := true } "public"
     rfl rfl rfl rfl rfl⟩

/-! ### Claim C3 -/

/-- Counterexample to claim C3: with a valid primary outcome and an
invalid CDN Directive Set (`maxAge: -1`), resolution raises an error, yet
the primary `Cache-Control` header has already been written on the
response — validation of the CDN set does not run before every header
write. -/
theorem claim_C3_atomicity_cex :
    (onSend { resolvedDefaults := some (.dirs { public := true }), cdn := some { directives := some { maxAge := some (-1) } } } ⟨"GET", "/"⟩ { statusCode := 200 }).2
      = some (.invalidValue "maxAge") ∧
    (onSend { resolvedDefaults := some (.dirs { public := true }), cdn := some { directives := some { maxAge := some (-1) } } } ⟨"GET", "/"⟩ { statusCode := 200 }).1.cacheControl
      = some "public" :=
  ⟨rfl, rfl⟩

/-- Claim C3 as amended: when resolution raises and the configured CDN
Directive Set (if any) is valid, no header has been written — the
response's headers are exactly as before; and on ANY resolution error the
CDN header is never written.  What fails in the original claim is only
the CDN case: the CDN set is validated after the primary `Cache-Control`
and `Vary` headers are written, so a failing CDN set leaves those two
behind (no individual header is ever half-written). -/
theorem applyCdn_ok_of_valid (cfg : PluginConfig)
    (hcdn : ∀ c cd, cfg.cdn = some c → c.directives = some cd →
      ∃ s, serializeDirectives cd = .ok s) :
    ∀ hs2 : Headers, (applyCdn cfg hs2).2 = none := by
  intro hs2
  unfold applyCdn
  cases hc : cfg.cdn with
  | none => rfl
  | some c =>
    dsimp only
    cases hcd : c.directives with
    | none => rfl
    | some cd =>
      dsimp only
      obtain ⟨s, hs⟩ := hcdn c cd hc hcd
      rw [hs]

theorem claim_C3_atomicity_amended :
    (∀ (cfg : PluginConfig) (request : Request) (reply : Reply) (e : CCError),
      (∀ c cd, cfg.cdn = some c → c.directives = some cd →
        ∃ s, serializeDirectives cd = .ok s) →
      (onSend cfg request reply).2 = some e →
      (onSend cfg request reply).1 = reply.headers) ∧
    (∀ (cfg : PluginConfig) (request : Request) (reply : Reply) (e : CCError),
      (onSend cfg request reply).2 = some e →
      (onSend cfg request reply).1.cdn = reply.headers.cdn) := by
  constructor
  · intro cfg request reply e hcdn h
    have hnoerr := applyCdn_ok_of_valid cfg hcdn
    simp only [onSend] at h ⊢
    repeat' split at h
    all_goals simp_all [hnoerr]
  · intro cfg request reply e h
    simp only [onSend, applyCdn] at h ⊢
    repeat' split at h
    all_goals simp_all [applyVary_cdn]

/-- Witness for C3's amended claim: a route config naming an unknown
preset raises, and — the CDN configuration being absent — the response's
headers are exactly as before. -/
theorem claim_C3_witness :
    (onSend {} ⟨"GET", "/"⟩ { statusCode := 200, routeConfig := some (.preset "bogus") }).1
      = ({} : Headers) :=
  claim_C3_atomicity_amended.1 {} ⟨"GET", "/"⟩
    { statusCode := 200, routeConfig := some (.preset "bogus") }
    (.invalidPreset "bogus") (fun c cd hc => by cases hc) rfl

end FastifyCacheControl
